import Mathlib

/-!
Shallow embedding of the egenome-libs caching engine.

Sources embedded here:
* `src/core/result.ts` — the `Result` success/failure type.
* `src/infra/memory/enhanced-memory-store.ts` (`EnhancedMemoryStore`) —
  the in-memory cache engine with TTL expiration, LRU ordering and statistics.
* `src/infra/hybrid/multi-tier-store.ts` (`MultiTierStore`) — the tiered
  orchestrator (read-through / write-through / write-behind).
* `src/use-cases/cache-item.ts` (`cacheItem`) — fetch-or-populate with retry.

Modelling conventions:
* `Promise`/`async` is elided: the reference semantics is sequential, and every
  stateful method is embedded as an explicit state-passing function.
* `Date.now()` is modelled by an explicit `now : Int` argument per operation
  (one call observes a single instant, as the methods read the clock at entry).
* JS `Map` is modelled as an insertion-ordered association list: `set` of an
  existing key updates in place, `set` of a new key appends, `delete` removes
  the entry; this matches JS `Map` iteration order.
* The LRU doubly-linked list (`lruHead`/`lruTail`/`keyToNode`) is modelled as a
  list of keys, head = most recently used.
* JS numbers used for times, sizes and counters are modelled as `Int`
  (additions and subtractions in the source are exact integer arithmetic);
  `Nat` is used only for pure loop counters.
* JS truthiness tests on numbers (`options?.ttlMs ?`, `entry.metadata.expiresAt &&`,
  `this.config.maxMemoryBytes &&`) are embedded as `≠ 0` tests on the optional value.
* Error messages (strings) are not modelled; errors carry their code and key.
* The external fetcher of `cacheItem` is modelled as a function from the
  invocation index to its outcome, together with an invocation counter and a
  trace of the delays awaited — the observable behaviour of the environment.
* Timers (`setInterval` cleanup / write-behind flush) are not scheduled here;
  the functions they invoke (`cleanup`, `processWriteBehindQueue`) are embedded
  and invoked explicitly.
-/

namespace EG

/-- Result type from `src/core/result.ts`: `Success | Failure`. -/
inductive Result (α : Type u) (ε : Type v) where
  | Ok (value : α)
  | Err (error : ε)
deriving Repr, DecidableEq

/-- Mirrors the `ok` discriminant of the TS `Result`. -/
def Result.isOk : Result α ε → Bool
  | .Ok _ => true
  | .Err _ => false

/-- Store error codes (`src/core/errors.ts`); only the code and offending key
are modelled, not the message string. -/
inductive StoreErrorCode where
  | OPERATION_FAILED
deriving Repr, DecidableEq

/-- Store error as produced by `createStoreError`. -/
structure StoreError where
  code : StoreErrorCode
  key : Option String
deriving Repr, DecidableEq

/-- `GetOptions` from the store contract: `refreshTtl?`, `defaultValue?`.
The `options?.refreshTtl` truthiness test is modelled by a plain `Bool`
defaulting to `false`. -/
structure GetOptions (V : Type v) where
  refreshTtl : Bool := false
  defaultValue : Option V := none

/-- `SetOptions` from the store contract: `ttlMs?`, `overwrite?`.
`overwrite` stays tri-state because the source tests `options?.overwrite === false`. -/
structure SetOptions where
  ttlMs : Option Int := none
  overwrite : Option Bool := none
deriving Repr, DecidableEq

/-- `ValueMetadata` from the store contract. -/
structure ValueMetadata where
  createdAt : Int
  lastAccessedAt : Int
  expiresAt : Option Int
  sizeBytes : Int
  accessCount : Int
deriving Repr, DecidableEq

/-- Internal entry structure of `EnhancedMemoryStore`. -/
structure InMemoryEntry (V : Type v) where
  value : V
  metadata : ValueMetadata
deriving DecidableEq

/-- Statistics block of `EnhancedMemoryStore`. -/
structure MemStats where
  keyCount : Int
  memoryUsageBytes : Int
  hits : Int
  misses : Int
  evictions : Int
  expirations : Int
deriving Repr, DecidableEq

/-- Fresh statistics, as initialised in the constructor. -/
def MemStats.init : MemStats :=
  { keyCount := 0, memoryUsageBytes := 0, hits := 0, misses := 0,
    evictions := 0, expirations := 0 }

/-- Configuration of the memory store: `maxMemoryBytes` plus the size
heuristic (`JSON.stringify(value).length * 2`), which is opaque to the
algorithm and therefore a parameter. -/
structure MemConfig (V : Type v) where
  maxMemoryBytes : Option Int := none
  calcSize : V → Int

/-- State of one `EnhancedMemoryStore` instance: the entry map (insertion
ordered), the LRU ordering (head = most recently used) and the stats. -/
structure EnhancedMemoryStore (V : Type v) where
  map : List (String × InMemoryEntry V)
  lru : List String
  stats : MemStats
deriving DecidableEq

/-- Empty store, as built by the constructor. -/
def EnhancedMemoryStore.empty : EnhancedMemoryStore V :=
  { map := [], lru := [], stats := MemStats.init }

/-- JS `Map.get` on an insertion-ordered association list. -/
def alGet : List (String × α) → String → Option α
  | [], _ => none
  | (k', v) :: rest, k => if k' = k then some v else alGet rest k

/-- JS `Map.set`: update in place when the key is present, append otherwise. -/
def alSet : List (String × α) → String → α → List (String × α)
  | [], k, v => [(k, v)]
  | (k', v') :: rest, k, v =>
    if k' = k then (k, v) :: rest else (k', v') :: alSet rest k v

/-- JS `Map.delete`: remove the (unique) entry for the key, if any. -/
def alDelete : List (String × α) → String → List (String × α)
  | [], _ => []
  | (k', v') :: rest, k => if k' = k then rest else (k', v') :: alDelete rest k

@[simp] theorem alGet_nil (k : String) : alGet ([] : List (String × α)) k = none := rfl

@[simp] theorem alGet_cons (k' k : String) (v : α) (rest : List (String × α)) :
    alGet ((k', v) :: rest) k = if k' = k then some v else alGet rest k := rfl

@[simp] theorem alSet_nil (k : String) (v : α) :
    alSet ([] : List (String × α)) k v = [(k, v)] := rfl

@[simp] theorem alSet_cons (k' k : String) (v' v : α) (rest : List (String × α)) :
    alSet ((k', v') :: rest) k v =
      if k' = k then (k, v) :: rest else (k', v') :: alSet rest k v := rfl

@[simp] theorem alDelete_nil (k : String) : alDelete ([] : List (String × α)) k = [] := rfl

@[simp] theorem alDelete_cons (k' k : String) (v' : α) (rest : List (String × α)) :
    alDelete ((k', v') :: rest) k =
      if k' = k then rest else (k', v') :: alDelete rest k := rfl

/-- LRU `moveToHead`: detach the node (if present) and reattach at the head. -/
def lruMoveToHead (lru : List String) (key : String) : List String :=
  key :: lru.erase key

/-- LRU `removeFromLRU`: detach and drop the node for the key. -/
def lruRemove (lru : List String) (key : String) : List String :=
  lru.erase key

/-- Private `isExpired`: `expiresAt !== undefined && expiresAt <= Date.now()`. -/
def isExpired (md : ValueMetadata) (now : Int) : Bool :=
  match md.expiresAt with
  | none => false
  | some t => t ≤ now

@[simp] theorem isExpired_none (c l s a : Int) (now : Int) :
    isExpired { createdAt := c, lastAccessedAt := l, expiresAt := none,
                sizeBytes := s, accessCount := a } now = false := rfl

@[simp] theorem isExpired_some (c l s a : Int) (t now : Int) :
    isExpired { createdAt := c, lastAccessedAt := l, expiresAt := some t,
                sizeBytes := s, accessCount := a } now = decide (t ≤ now) := by
  simp [isExpired]

/-- Embeds `EnhancedMemoryStore.get` (src lines 94–130): lazy expiration,
access-metadata update, optional TTL refresh, LRU move-to-head, hit/miss
counting. Note the truthiness test on `expiresAt` before the refresh. -/
def EnhancedMemoryStore.get (s : EnhancedMemoryStore V) (now : Int) (key : String)
    (options : GetOptions V) : Result (Option V) StoreError × EnhancedMemoryStore V :=
  match alGet s.map key with
  | none =>
    (Result.Ok options.defaultValue,
     { s with stats := { s.stats with misses := s.stats.misses + 1 } })
  | some entry =>
    if isExpired entry.metadata now then
      (Result.Ok options.defaultValue,
       { s with
          map := alDelete s.map key
          lru := lruRemove s.lru key
          stats := { s.stats with
                      expirations := s.stats.expirations + 1
                      misses := s.stats.misses + 1 } })
    else
      let md1 := { entry.metadata with
                    lastAccessedAt := now
                    accessCount := entry.metadata.accessCount + 1 }
      let md2 :=
        if options.refreshTtl then
          match md1.expiresAt with
          | some exp =>
            if exp ≠ 0 then
              { md1 with expiresAt := some (now + (exp - md1.createdAt)) }
            else md1
          | none => md1
        else md1
      (Result.Ok (some entry.value),
       { s with
          map := alSet s.map key { entry with metadata := md2 }
          lru := lruMoveToHead s.lru key
          stats := { s.stats with hits := s.stats.hits + 1 } })

/-- Embeds `EnhancedMemoryStore.delete` (src lines 209–227). -/
def EnhancedMemoryStore.delete (s : EnhancedMemoryStore V) (key : String) :
    Result Bool StoreError × EnhancedMemoryStore V :=
  match alGet s.map key with
  | none => (Result.Ok false, s)
  | some entry =>
    (Result.Ok true,
     { s with
        map := alDelete s.map key
        lru := lruRemove s.lru key
        stats := { s.stats with
                    keyCount := s.stats.keyCount - 1
                    memoryUsageBytes := s.stats.memoryUsageBytes - entry.metadata.sizeBytes } })

/-- Tail-to-head walk of `EnhancedMemoryStore.evict` (src lines 507–536): the
cursor walks the captured node chain from the tail, so it visits the reversed
LRU list; keys still present in the map are removed and counted. -/
def evictGo : List String → Nat → EnhancedMemoryStore V → List String →
    List String × EnhancedMemoryStore V
  | [], _, s, acc => (acc, s)
  | k :: rest, remaining, s, acc =>
    if remaining = 0 then (acc, s)
    else
      match alGet s.map k with
      | some entry =>
        evictGo rest (remaining - 1)
          { s with
             map := alDelete s.map k
             lru := lruRemove s.lru k
             stats := { s.stats with
                         keyCount := s.stats.keyCount - 1
                         memoryUsageBytes := s.stats.memoryUsageBytes - entry.metadata.sizeBytes
                         evictions := s.stats.evictions + 1 } }
          (acc ++ [k])
      | none => evictGo rest remaining s acc

/-- Embeds `EnhancedMemoryStore.evict(count)`: LRU eviction starting from the
recency tail. -/
def EnhancedMemoryStore.evict (s : EnhancedMemoryStore V) (count : Nat) :
    Result (List String) StoreError × EnhancedMemoryStore V :=
  let (evictedKeys, s') := evictGo s.lru.reverse count s []
  (Result.Ok evictedKeys, s')

/-- The `while` loop of `evictToMakeSpace` (src lines 636–647): evict in
batches of 10 until usage is at most the target or nothing is left to evict.
Each round that continues has evicted at least one entry, so the initial map
length bounds the number of rounds; the fuel makes that explicit. -/
def evictLoop (target : Int) : Nat → EnhancedMemoryStore V → EnhancedMemoryStore V
  | 0, s => s
  | fuel + 1, s =>
    if s.stats.memoryUsageBytes > target then
      let (r, s') := s.evict 10
      match r with
      | Result.Ok evicted => if evicted = [] then s' else evictLoop target fuel s'
      | Result.Err _ => s'
    else s

/-- Embeds `evictToMakeSpace`: `maxBytes = this.config.maxMemoryBytes || Infinity`.
When `maxMemoryBytes` is falsy the target is `Infinity` and the loop body never
runs (the sole caller also guards on truthiness), so the store is returned
unchanged in that branch. -/
def EnhancedMemoryStore.evictToMakeSpace (cfg : MemConfig V) (s : EnhancedMemoryStore V)
    (requiredBytes : Int) : EnhancedMemoryStore V :=
  match cfg.maxMemoryBytes with
  | some maxB =>
    if maxB ≠ 0 then evictLoop (maxB - requiredBytes) (s.map.length + 1) s else s
  | none => s

/-- Embeds `EnhancedMemoryStore.set` (src lines 135–180). Note: `existing` is
captured before the possible eviction pass and reused afterwards for the stats
delta, exactly as in the source. The `options?.ttlMs ?` truthiness means a TTL
of `0` yields no expiry. -/
def EnhancedMemoryStore.set (cfg : MemConfig V) (s : EnhancedMemoryStore V) (now : Int)
    (key : String) (value : V) (options : SetOptions) :
    Result Unit StoreError × EnhancedMemoryStore V :=
  let existing := alGet s.map key
  if existing.isSome ∧ options.overwrite = some false then
    (Result.Err { code := StoreErrorCode.OPERATION_FAILED, key := some key }, s)
  else
    let sizeBytes := cfg.calcSize value
    let existingSize := (existing.map (fun e => e.metadata.sizeBytes)).getD 0
    let s1 :=
      match cfg.maxMemoryBytes with
      | some maxB =>
        if maxB ≠ 0 ∧ s.stats.memoryUsageBytes + sizeBytes - existingSize > maxB then
          EnhancedMemoryStore.evictToMakeSpace cfg s sizeBytes
        else s
      | none => s
    let expiresAt : Option Int :=
      match options.ttlMs with
      | some ttl => if ttl ≠ 0 then some (now + ttl) else none
      | none => none
    let metadata : ValueMetadata :=
      { createdAt := now, lastAccessedAt := now, expiresAt := expiresAt,
        sizeBytes := sizeBytes, accessCount := 1 }
    (Result.Ok (),
     { map := alSet s1.map key { value := value, metadata := metadata }
       lru := lruMoveToHead s1.lru key
       stats := { s1.stats with
                   keyCount := if existing.isNone then s1.stats.keyCount + 1 else s1.stats.keyCount
                   memoryUsageBytes := s1.stats.memoryUsageBytes + sizeBytes - existingSize } })

/-- Sweep of `EnhancedMemoryStore.cleanup` (src lines 467–487): iterate the
entries, removing each whose `expiresAt` is truthy and has passed. Only the
entry under the cursor is ever deleted, so iterating the initial entry list is
the JS live-map iteration. -/
def cleanupGo (now : Int) : List (String × InMemoryEntry V) → EnhancedMemoryStore V → Int →
    Int × EnhancedMemoryStore V
  | [], s, expiredCount => (expiredCount, s)
  | (key, entry) :: rest, s, expiredCount =>
    match entry.metadata.expiresAt with
    | some exp =>
      if exp ≠ 0 ∧ exp ≤ now then
        cleanupGo now rest
          { s with
             map := alDelete s.map key
             lru := lruRemove s.lru key
             stats := { s.stats with
                         keyCount := s.stats.keyCount - 1
                         memoryUsageBytes := s.stats.memoryUsageBytes - entry.metadata.sizeBytes
                         expirations := s.stats.expirations + 1 } }
          (expiredCount + 1)
      else cleanupGo now rest s expiredCount
    | none => cleanupGo now rest s expiredCount

/-- Embeds `EnhancedMemoryStore.cleanup`: the eager expiration sweep. -/
def EnhancedMemoryStore.cleanup (s : EnhancedMemoryStore V) (now : Int) :
    Result Int StoreError × EnhancedMemoryStore V :=
  let (expiredCount, s') := cleanupGo now s.map s 0
  (Result.Ok expiredCount, s')

/-- Token of the regular expression produced by `pattern.replace(/\*/g, '.*')`:
a literal character, or the `.*` wildcard. The embedding covers patterns made
of literal characters and `*`; other regex metacharacters are out of scope. -/
inductive RTok where
  | lit (c : Char)
  | anyseq
deriving Repr, DecidableEq

/-- Translation of a glob pattern to its regex token list (`*` becomes `.*`). -/
def globToks : List Char → List RTok
  | [] => []
  | c :: cs => (if c = '*' then RTok.anyseq else RTok.lit c) :: globToks cs

/-- Acceptance of the token list on a prefix of the input, the core of JS
`RegExp.test` matching started at a fixed position. -/
def reAccept : List RTok → List Char → Bool
  | [], _ => true
  | RTok.lit _ :: _, [] => false
  | RTok.lit c :: ts, d :: ds => c = d && reAccept ts ds
  | RTok.anyseq :: ts, cs =>
    reAccept ts cs ||
      (match cs with
       | [] => false
       | _ :: ds => reAccept (RTok.anyseq :: ts) ds)
termination_by ts cs => (ts.length, cs.length)

/-- JS `RegExp.test`: the (unanchored) regex matches at some start position. -/
def reTest (ts : List RTok) (s : List Char) : Bool :=
  (List.range (s.length + 1)).any (fun i => reAccept ts (s.drop i))

/-- Embeds `EnhancedMemoryStore.keys(pattern?)` (src lines 404–420): list the
map keys; a falsy pattern (absent or empty) returns them all, otherwise they
are filtered by the glob-to-regex translation. The map itself is read as-is —
no expiry check happens here. -/
def EnhancedMemoryStore.keys (s : EnhancedMemoryStore V) (pattern : Option String) :
    Result (List String) StoreError :=
  let allKeys := s.map.map Prod.fst
  match pattern with
  | none => Result.Ok allKeys
  | some p =>
    if p = "" then Result.Ok allKeys
    else Result.Ok (allKeys.filter (fun k => reTest (globToks p.data) k.data))

/-- Batch set operation from the store contract. -/
structure BatchSetOperation (V : Type v) where
  key : String
  value : V
  options : Option SetOptions := none

/-- Batch result from the store contract. -/
structure BatchResult where
  successful : List String
  failed : List (String × StoreError)
deriving Repr, DecidableEq

/-- Loop of `EnhancedMemoryStore.mset` (src lines 277–295): apply `set` per
operation, partitioning keys into successes and failures. -/
def msetGo (cfg : MemConfig V) (now : Int) : List (BatchSetOperation V) →
    EnhancedMemoryStore V → List String → List (String × StoreError) →
    BatchResult × EnhancedMemoryStore V
  | [], s, successful, failed => ({ successful := successful, failed := failed }, s)
  | op :: rest, s, successful, failed =>
    let (r, s') := EnhancedMemoryStore.set cfg s now op.key op.value (op.options.getD {})
    match r with
    | Result.Ok _ => msetGo cfg now rest s' (successful ++ [op.key]) failed
    | Result.Err e => msetGo cfg now rest s' successful (failed ++ [(op.key, e)])

/-- Embeds `EnhancedMemoryStore.mset`. -/
def EnhancedMemoryStore.mset (cfg : MemConfig V) (s : EnhancedMemoryStore V) (now : Int)
    (operations : List (BatchSetOperation V)) :
    Result BatchResult StoreError × EnhancedMemoryStore V :=
  let (batch, s') := msetGo cfg now operations s [] []
  (Result.Ok batch, s')

/-- Interface slice of `IKeyValueStore` used by the tiered orchestrator and by
`cacheItem`: a state type together with the state-passing operations. -/
structure StoreOps (σ : Type u) (V : Type v) where
  get : σ → Int → String → GetOptions V → Result (Option V) StoreError × σ
  set : σ → Int → String → V → SetOptions → Result Unit StoreError × σ
  mset : σ → Int → List (BatchSetOperation V) → Result BatchResult StoreError × σ

/-- The `EnhancedMemoryStore` instance of the interface slice. -/
def memOps (cfg : MemConfig V) : StoreOps (EnhancedMemoryStore V) V :=
  { get := fun s now key options => EnhancedMemoryStore.get s now key options
    set := fun s now key value options => EnhancedMemoryStore.set cfg s now key value options
    mset := fun s now operations => EnhancedMemoryStore.mset cfg s now operations }

/-- Fully-populated `MultiTierConfig` (after the constructor defaults);
`writeBehindDelayMs` only schedules the background timer and is not part of
the state semantics embedded here. -/
structure MultiTierConfig where
  l1TtlMs : Int
  l2TtlMs : Int
  populateL1OnL2Hit : Bool
  writeThrough : Bool
  writeBehind : Bool
deriving Repr, DecidableEq

/-- Write-behind queue entry: `{value, options, timestamp}`. -/
structure QueueItem (V : Type v) where
  value : V
  options : SetOptions
  timestamp : Int

/-- State of a `MultiTierStore`: the two tier states plus the write-behind
queue (a JS `Map`, modelled like the entry map). -/
structure MultiTierStore (σ₁ : Type u) (σ₂ : Type w) (V : Type v) where
  l1 : σ₁
  l2 : σ₂
  writeBehindQueue : List (String × QueueItem V)

/-- Embeds `MultiTierStore.get` (src lines 88–131): L1 first; a defined L1
value returns immediately; otherwise L2 is queried, a defined L2 value
optionally repopulates L1 with the L1 TTL, and a miss on both returns the
caller's `defaultValue`. -/
def MultiTierStore.get (ops1 : StoreOps σ₁ V) (ops2 : StoreOps σ₂ V)
    (cfg : MultiTierConfig) (s : MultiTierStore σ₁ σ₂ V) (now : Int) (key : String)
    (options : GetOptions V) :
    Result (Option V) StoreError × MultiTierStore σ₁ σ₂ V :=
  let (l1Result, l1a) := ops1.get s.l1 now key options
  match l1Result with
  | Result.Ok (some v) => (Result.Ok (some v), { s with l1 := l1a })
  | _ =>
    let (l2Result, l2a) := ops2.get s.l2 now key options
    match l2Result with
    | Result.Err e => (Result.Err e, { s with l1 := l1a, l2 := l2a })
    | Result.Ok (some v) =>
      if cfg.populateL1OnL2Hit then
        let (_, l1b) := ops1.set l1a now key v
          { ttlMs := some cfg.l1TtlMs, overwrite := some true }
        (Result.Ok (some v), { s with l1 := l1b, l2 := l2a })
      else
        (Result.Ok (some v), { s with l1 := l1a, l2 := l2a })
    | Result.Ok none =>
      (Result.Ok options.defaultValue, { s with l1 := l1a, l2 := l2a })

/-- Embeds `queueWriteBehind` (src lines 501–507): `Map.set` on the queue. -/
def MultiTierStore.queueWriteBehind (s : MultiTierStore σ₁ σ₂ V) (key : String)
    (value : V) (options : SetOptions) (now : Int) : MultiTierStore σ₁ σ₂ V :=
  { s with writeBehindQueue :=
      alSet s.writeBehindQueue key { value := value, options := options, timestamp := now } }

/-- Embeds `MultiTierStore.set` (src lines 136–174): synchronous L1 write with
`ttlMs ?? l1TtlMs` whose failure fails the call; then, by policy, synchronous
L2 write with `ttlMs ?? l2TtlMs` whose failure is only logged, or queueing for
write-behind (with the L2 TTL default applied before queueing), or nothing. -/
def MultiTierStore.set (ops1 : StoreOps σ₁ V) (ops2 : StoreOps σ₂ V)
    (cfg : MultiTierConfig) (s : MultiTierStore σ₁ σ₂ V) (now : Int) (key : String)
    (value : V) (options : SetOptions) :
    Result Unit StoreError × MultiTierStore σ₁ σ₂ V :=
  let (l1SetResult, l1a) := ops1.set s.l1 now key value
    { options with ttlMs := some (options.ttlMs.getD cfg.l1TtlMs) }
  match l1SetResult with
  | Result.Err e => (Result.Err e, { s with l1 := l1a })
  | Result.Ok _ =>
    if cfg.writeThrough then
      let (_, l2a) := ops2.set s.l2 now key value
        { options with ttlMs := some (options.ttlMs.getD cfg.l2TtlMs) }
      (Result.Ok (), { s with l1 := l1a, l2 := l2a })
    else if cfg.writeBehind then
      (Result.Ok (),
       MultiTierStore.queueWriteBehind { s with l1 := l1a } key value
         { options with ttlMs := some (options.ttlMs.getD cfg.l2TtlMs) } now)
    else
      (Result.Ok (), { s with l1 := l1a })

/-- Operation list a flush sends to the durable tier: the whole queue, in
order, as one batch (src lines 520–530). -/
def flushOperations (queue : List (String × QueueItem V)) : List (BatchSetOperation V) :=
  queue.map (fun p => { key := p.1, value := p.2.value, options := some p.2.options })

/-- Embeds `processWriteBehindQueue` (src lines 517–539): snapshot the queue
into one `mset` batch for L2, then delete exactly the snapshotted keys (in
this sequential semantics the queue drains to empty; an `mset` failure result
is only logged). -/
def MultiTierStore.processWriteBehindQueue (ops2 : StoreOps σ₂ V)
    (s : MultiTierStore σ₁ σ₂ V) (now : Int) : MultiTierStore σ₁ σ₂ V :=
  if s.writeBehindQueue.isEmpty then s
  else
    let operations := flushOperations s.writeBehindQueue
    let keysToRemove := s.writeBehindQueue.map Prod.fst
    let (_, l2a) := ops2.mset s.l2 now operations
    { s with
       l2 := l2a
       writeBehindQueue := keysToRemove.foldl (fun q k => alDelete q k) s.writeBehindQueue }

/-- Cache error from `createCacheError`, restricted to the codes and context
`cacheItem` produces. -/
inductive CacheError (ε : Type u) where
  | fetchFailed (retryCount : Nat) (lastError : Option ε)
  | storeFailed (storeError : StoreError)
deriving Repr

/-- Metadata of a `CacheResult`; `operationTimeMs` is wall-clock time and is
outside this embedding. -/
structure CacheMeta where
  cacheHit : Bool
  retryAttempted : Bool
  retryCount : Nat
deriving Repr, DecidableEq

/-- Result payload of `cacheItem`. -/
structure CacheResult (V : Type v) where
  value : V
  fromCache : Bool
  metadata : CacheMeta
deriving Repr, DecidableEq

/-- User-supplied `CacheItemOptions` (all optional). -/
structure CacheItemOptions (V : Type v) where
  ttlMs : Option Int := none
  refreshTtl : Option Bool := none
  defaultValue : Option V := none
  storeOnError : Option Bool := none
  maxRetries : Option Nat := none
  retryDelayMs : Option Int := none

/-- The merged options of `cacheItem` (src lines 75–82), with the global
config's `defaultTtlMs` as an explicit argument. -/
structure MergedOptions (V : Type v) where
  ttlMs : Int
  refreshTtl : Bool
  defaultValue : Option V
  storeOnError : Bool
  maxRetries : Nat
  retryDelayMs : Int

/-- Merging of `CacheItemOptions` over the defaults. -/
def mergeOptions (options : CacheItemOptions V) (configDefaultTtlMs : Option Int) :
    MergedOptions V :=
  { ttlMs := options.ttlMs.getD (configDefaultTtlMs.getD (5 * 60 * 1000))
    refreshTtl := options.refreshTtl.getD false
    defaultValue := options.defaultValue
    storeOnError := options.storeOnError.getD false
    maxRetries := options.maxRetries.getD 2
    retryDelayMs := options.retryDelayMs.getD 1000 }

/-- Outcome of the retry loop, together with the observable environment trace:
how many times the fetcher was invoked and which delays were awaited. -/
structure RetryOutcome (V : Type v) (ε : Type u) where
  fetchResult : Option (Result V ε)
  retryCount : Nat
  retryAttempted : Bool
  calls : Nat
  waits : List Int

/-- The retry `while` loop of `cacheItem` (src lines 125–146). The fetcher is
modelled as a map from invocation index to outcome; `calls` counts its
invocations. After a failure the count is bumped and, if another attempt
remains, the fixed `retryDelayMs` is awaited before re-entering the loop. -/
def retryGo (fetch : Nat → Result V ε) (maxRetries : Nat) (retryDelayMs : Int) :
    Nat → Bool → Nat → List Int → RetryOutcome V ε
  | retryCount, retryAttempted, calls, waits =>
    if retryCount ≤ maxRetries then
      if (fetch calls).isOk then
        { fetchResult := some (fetch calls), retryCount := retryCount,
          retryAttempted := retryAttempted, calls := calls + 1, waits := waits }
      else
        if retryCount + 1 ≤ maxRetries then
          retryGo fetch maxRetries retryDelayMs (retryCount + 1) true (calls + 1)
            (waits ++ [retryDelayMs])
        else
          { fetchResult := some (fetch calls), retryCount := retryCount + 1,
            retryAttempted := true, calls := calls + 1, waits := waits }
    else
      { fetchResult := none, retryCount := retryCount,
        retryAttempted := retryAttempted, calls := calls, waits := waits }
termination_by retryCount _ _ _ => maxRetries + 1 - retryCount

/-- Full outcome of a `cacheItem` call: the returned `Result`, the store state
afterwards, and the environment trace of the retry loop. -/
structure CacheItemOutcome (σ : Type u) (V : Type v) (ε : Type w) where
  res : Result (CacheResult V) (CacheError ε)
  store : σ
  fetchCalls : Nat
  waits : List Int

/-- Embeds `cacheItem` (src/use-cases/cache-item.ts lines 69–248): cache
lookup (a store failure degrades to the miss path), bounded fixed-delay retry
of the fetcher, the `defaultValue` fallback, the store write of a fetched
value, and the `storeOnError` policy for a failed write. -/
def cacheItem (ops : StoreOps σ V) (s : σ) (now : Int) (key : String)
    (fetch : Nat → Result V ε) (options : CacheItemOptions V)
    (configDefaultTtlMs : Option Int) : CacheItemOutcome σ V ε :=
  let merged := mergeOptions options configDefaultTtlMs
  let getOptions : GetOptions V := { refreshTtl := merged.refreshTtl, defaultValue := none }
  let (cacheResult, s1) := ops.get s now key getOptions
  match cacheResult with
  | Result.Ok (some v) =>
    { res := Result.Ok
        { value := v, fromCache := true,
          metadata := { cacheHit := true, retryAttempted := false, retryCount := 0 } }
      store := s1, fetchCalls := 0, waits := [] }
  | _ =>
    let out := retryGo fetch merged.maxRetries merged.retryDelayMs 0 false 0 []
    match out.fetchResult with
    | some (Result.Ok v) =>
      let setOptions : SetOptions := { ttlMs := some merged.ttlMs, overwrite := some true }
      let (storeResult, s2) := ops.set s1 now key v setOptions
      match storeResult with
      | Result.Ok _ =>
        { res := Result.Ok
            { value := v, fromCache := false,
              metadata := { cacheHit := false, retryAttempted := out.retryAttempted,
                            retryCount := out.retryCount } }
          store := s2, fetchCalls := out.calls, waits := out.waits }
      | Result.Err e =>
        if !merged.storeOnError then
          { res := Result.Ok
              { value := v, fromCache := false,
                metadata := { cacheHit := false, retryAttempted := out.retryAttempted,
                              retryCount := out.retryCount } }
            store := s2, fetchCalls := out.calls, waits := out.waits }
        else
          { res := Result.Err (CacheError.storeFailed e)
            store := s2, fetchCalls := out.calls, waits := out.waits }
    | some (Result.Err e) =>
      match merged.defaultValue with
      | some d =>
        { res := Result.Ok
            { value := d, fromCache := false,
              metadata := { cacheHit := false, retryAttempted := out.retryAttempted,
                            retryCount := out.retryCount } }
          store := s1, fetchCalls := out.calls, waits := out.waits }
      | none =>
        { res := Result.Err (CacheError.fetchFailed out.retryCount (some e))
          store := s1, fetchCalls := out.calls, waits := out.waits }
    | none =>
      match merged.defaultValue with
      | some d =>
        { res := Result.Ok
            { value := d, fromCache := false,
              metadata := { cacheHit := false, retryAttempted := out.retryAttempted,
                            retryCount := out.retryCount } }
          store := s1, fetchCalls := out.calls, waits := out.waits }
      | none =>
        { res := Result.Err (CacheError.fetchFailed out.retryCount none)
          store := s1, fetchCalls := out.calls, waits := out.waits }

/-! Helper lemmas about the association-list model of JS `Map`. -/

theorem alGet_alSet_self (m : List (String × α)) (k : String) (v : α) :
    alGet (alSet m k v) k = some v := by
  induction m with
  | nil => simp
  | cons p rest ih =>
    obtain ⟨k', v'⟩ := p
    by_cases h : k' = k <;> simp [h, ih]

theorem alGet_alSet_ne (m : List (String × α)) (k' k : String) (v : α) (h : k' ≠ k) :
    alGet (alSet m k' v) k = alGet m k := by
  induction m with
  | nil => simp [h]
  | cons p rest ih =>
    obtain ⟨k'', v''⟩ := p
    by_cases h2 : k'' = k' <;> by_cases h3 : k'' = k <;>
      simp_all [alGet, alSet]

theorem alGet_eq_none_of_notMem (m : List (String × α)) (k : String)
    (h : k ∉ m.map Prod.fst) : alGet m k = none := by
  induction m with
  | nil => simp
  | cons p rest ih =>
    obtain ⟨k', v'⟩ := p
    simp only [List.map_cons, List.mem_cons] at h
    push_neg at h
    simp [Ne.symm h.1, ih h.2]

theorem alSet_of_notMem (m : List (String × α)) (k : String) (v : α)
    (h : k ∉ m.map Prod.fst) : alSet m k v = m ++ [(k, v)] := by
  induction m with
  | nil => simp
  | cons p rest ih =>
    obtain ⟨k', v'⟩ := p
    simp only [List.map_cons, List.mem_cons] at h
    push_neg at h
    simp [Ne.symm h.1, ih h.2]

theorem alSet_append_self (m : List (String × α)) (k : String) (v w : α)
    (h : k ∉ m.map Prod.fst) : alSet (m ++ [(k, v)]) k w = m ++ [(k, w)] := by
  induction m with
  | nil => simp
  | cons p rest ih =>
    obtain ⟨k', v'⟩ := p
    simp only [List.map_cons, List.mem_cons] at h
    push_neg at h
    simp [Ne.symm h.1, ih h.2]

theorem alGet_append_self (m : List (String × α)) (k : String) (v : α)
    (h : k ∉ m.map Prod.fst) : alGet (m ++ [(k, v)]) k = some v := by
  induction m with
  | nil => simp
  | cons p rest ih =>
    obtain ⟨k', v'⟩ := p
    simp only [List.map_cons, List.mem_cons] at h
    push_neg at h
    simp [Ne.symm h.1, ih h.2]

theorem foldl_alDelete_keys (q : List (String × α)) (h : (q.map Prod.fst).Nodup) :
    (q.map Prod.fst).foldl (fun acc k => alDelete acc k) q = [] := by
  induction q with
  | nil => simp
  | cons p rest ih =>
    obtain ⟨k, v⟩ := p
    simp only [List.map_cons, List.nodup_cons] at h
    simp only [List.map_cons, List.foldl_cons]
    have hdel : alDelete ((k, v) :: rest) k = rest := by simp
    rw [hdel]
    exact ih h.2

/-! Helper lemmas about `EnhancedMemoryStore` operations. -/

theorem mem_get_miss (s : EnhancedMemoryStore V) (now : Int) (key : String)
    (options : GetOptions V) (h : alGet s.map key = none) :
    EnhancedMemoryStore.get s now key options =
      (Result.Ok options.defaultValue,
       { s with stats := { s.stats with misses := s.stats.misses + 1 } }) := by
  simp [EnhancedMemoryStore.get, h]

theorem mem_get_expired (s : EnhancedMemoryStore V) (now : Int) (key : String)
    (options : GetOptions V) (entry : InMemoryEntry V)
    (h : alGet s.map key = some entry) (hexp : isExpired entry.metadata now = true) :
    EnhancedMemoryStore.get s now key options =
      (Result.Ok options.defaultValue,
       { s with
          map := alDelete s.map key
          lru := lruRemove s.lru key
          stats := { s.stats with
                      expirations := s.stats.expirations + 1
                      misses := s.stats.misses + 1 } }) := by
  simp [EnhancedMemoryStore.get, h, hexp]

theorem mem_get_hit_val (s : EnhancedMemoryStore V) (now : Int) (key : String)
    (options : GetOptions V) (entry : InMemoryEntry V)
    (h : alGet s.map key = some entry) (hexp : isExpired entry.metadata now = false) :
    (EnhancedMemoryStore.get s now key options).1 = Result.Ok (some entry.value) := by
  simp [EnhancedMemoryStore.get, h, hexp]

theorem mem_get_hit_norefresh (s : EnhancedMemoryStore V) (now : Int) (key : String)
    (options : GetOptions V) (entry : InMemoryEntry V)
    (h : alGet s.map key = some entry) (hexp : isExpired entry.metadata now = false)
    (hrt : options.refreshTtl = false) :
    EnhancedMemoryStore.get s now key options =
      (Result.Ok (some entry.value),
       { s with
          map := alSet s.map key
            { entry with metadata :=
                { entry.metadata with
                   lastAccessedAt := now
                   accessCount := entry.metadata.accessCount + 1 } }
          lru := lruMoveToHead s.lru key
          stats := { s.stats with hits := s.stats.hits + 1 } }) := by
  simp [EnhancedMemoryStore.get, h, hexp, hrt]

theorem mem_set_ok (cfg : MemConfig V) (s : EnhancedMemoryStore V) (now : Int)
    (key : String) (value : V) (options : SetOptions)
    (h : options.overwrite ≠ some false) :
    (EnhancedMemoryStore.set cfg s now key value options).1 = Result.Ok () := by
  simp only [EnhancedMemoryStore.set]
  rw [if_neg]
  intro hc
  exact h hc.2

theorem mem_set_alGet_self (cfg : MemConfig V) (s : EnhancedMemoryStore V)
    (now : Int) (key : String) (value : V) (options : SetOptions)
    (h : options.overwrite ≠ some false) :
    alGet (EnhancedMemoryStore.set cfg s now key value options).2.map key =
      some { value := value
             metadata :=
               { createdAt := now, lastAccessedAt := now
                 expiresAt :=
                   match options.ttlMs with
                   | some ttl => if ttl ≠ 0 then some (now + ttl) else none
                   | none => none
                 sizeBytes := cfg.calcSize value
                 accessCount := 1 } } := by
  simp only [EnhancedMemoryStore.set]
  rw [if_neg]
  · exact alGet_alSet_self _ _ _
  · intro hc
    exact h hc.2

/-! Concrete example states shared by several concrete theorems. -/

/-- Size heuristic fixed at 8 bytes; no memory budget. -/
def exCfg : MemConfig Nat := { maxMemoryBytes := none, calcSize := fun _ => 8 }

/-- Store after `set("k", 1, {ttlMs: 5})` at time 0: the entry expires at 5. -/
def exStoreTtl : EnhancedMemoryStore Nat :=
  (EnhancedMemoryStore.set exCfg EnhancedMemoryStore.empty 0 "k" 1 { ttlMs := some 5 }).2

/-! Claim C6 — stats invariant under lazy expiration -/

/-- Claim C6 counterexample. After `set("k",1,{ttlMs:5})` at t=0 and `get("k")`
at t=10 (which lazily expires the entry), the map is empty while `keyCount`
is still 1 and `memoryUsageBytes` still 8: the claimed invariant
`keyCount = number of entries ∧ memoryUsageBytes = Σ sizeBytes` is violated
by the lazy-expiration path. -/
theorem c6_counterexample :
    (EnhancedMemoryStore.get exStoreTtl 10 "k" {}).2.map.length = 0 ∧
    (EnhancedMemoryStore.get exStoreTtl 10 "k" {}).2.stats.keyCount = 1 ∧
    (EnhancedMemoryStore.get exStoreTtl 10 "k" {}).2.stats.memoryUsageBytes = 8 := by
  refine ⟨?_, ?_, ?_⟩ <;> decide

/-- Claim C6, amended. When a `get` lazily expires an entry, the entry is
removed from the map and `expirations`/`misses` increment, but `keyCount` and
`memoryUsageBytes` are left unchanged — unlike `delete`, which decrements
`keyCount` by one and `memoryUsageBytes` by the destroyed entry's size. -/
theorem c6_amended (V : Type) (s : EnhancedMemoryStore V) (now : Int) (key : String)
    (options : GetOptions V) (entry : InMemoryEntry V)
    (hmem : alGet s.map key = some entry)
    (hexp : isExpired entry.metadata now = true) :
    ((EnhancedMemoryStore.get s now key options).2.map = alDelete s.map key ∧
     (EnhancedMemoryStore.get s now key options).2.stats.keyCount = s.stats.keyCount ∧
     (EnhancedMemoryStore.get s now key options).2.stats.memoryUsageBytes =
       s.stats.memoryUsageBytes ∧
     (EnhancedMemoryStore.get s now key options).2.stats.expirations =
       s.stats.expirations + 1 ∧
     (EnhancedMemoryStore.get s now key options).2.stats.misses = s.stats.misses + 1) ∧
    ((EnhancedMemoryStore.delete s key).2.stats.keyCount = s.stats.keyCount - 1 ∧
     (EnhancedMemoryStore.delete s key).2.stats.memoryUsageBytes =
       s.stats.memoryUsageBytes - entry.metadata.sizeBytes) := by
  rw [mem_get_expired s now key options entry hmem hexp]
  refine ⟨⟨rfl, rfl, rfl, rfl, rfl⟩, ?_⟩
  simp [EnhancedMemoryStore.delete, hmem]

/-- Claim C6 witness for the amended theorem, at the concrete state of the
counterexample. -/
theorem c6_witness :
    ((EnhancedMemoryStore.get exStoreTtl 10 "k" {}).2.map = alDelete exStoreTtl.map "k" ∧
     (EnhancedMemoryStore.get exStoreTtl 10 "k" {}).2.stats.keyCount =
       exStoreTtl.stats.keyCount ∧
     (EnhancedMemoryStore.get exStoreTtl 10 "k" {}).2.stats.memoryUsageBytes =
       exStoreTtl.stats.memoryUsageBytes ∧
     (EnhancedMemoryStore.get exStoreTtl 10 "k" {}).2.stats.expirations =
       exStoreTtl.stats.expirations + 1 ∧
     (EnhancedMemoryStore.get exStoreTtl 10 "k" {}).2.stats.misses =
       exStoreTtl.stats.misses + 1) ∧
    ((EnhancedMemoryStore.delete exStoreTtl "k").2.stats.keyCount =
       exStoreTtl.stats.keyCount - 1 ∧
     (EnhancedMemoryStore.delete exStoreTtl "k").2.stats.memoryUsageBytes =
       exStoreTtl.stats.memoryUsageBytes -
         ({ createdAt := 0, lastAccessedAt := 0, expiresAt := some 5,
            sizeBytes := 8, accessCount := 1 } : ValueMetadata).sizeBytes) :=
  c6_amended Nat exStoreTtl 10 "k" {}
    { value := 1
      metadata := { createdAt := 0, lastAccessedAt := 0, expiresAt := some 5,
                    sizeBytes := 8, accessCount := 1 } }
    (by decide) (by decide)

/-! Claim C7 — `keys()` and expired entries -/

/-- List of keys returned by `keys(pattern?)` (it always succeeds). -/
def keysList (s : EnhancedMemoryStore V) (pattern : Option String) : List String :=
  match EnhancedMemoryStore.keys s pattern with
  | Result.Ok l => l
  | Result.Err _ => []

/-- Claim C7 counterexample. At inspection time 10 the single entry of
`exStoreTtl` (expiring at 5) has already expired, yet `keys()` still returns
its key: expired-but-unremoved keys are not filtered out. -/
theorem c7_counterexample :
    EnhancedMemoryStore.keys exStoreTtl none = Result.Ok ["k"] ∧
    ((alGet exStoreTtl.map "k").map (fun e => isExpired e.metadata 10)) = some true := by
  refine ⟨?_, ?_⟩ <;> decide

/-- Claim C7, amended. `keys()` returns exactly the keys currently present in
the map — including entries whose `expiresAt` has already passed — and a
(non-empty) pattern restricts the result to keys matched by the glob-to-regex
translation of the pattern (`*` ↦ `.*`, tested unanchored). -/
theorem c7_amended (V : Type) (s : EnhancedMemoryStore V) (p : String) (k : String)
    (hp : p ≠ "") :
    (k ∈ keysList s none ↔ k ∈ s.map.map Prod.fst) ∧
    (k ∈ keysList s (some p) ↔
      (k ∈ s.map.map Prod.fst ∧ reTest (globToks p.data) k.data = true)) := by
  constructor
  · simp [keysList, EnhancedMemoryStore.keys]
  · simp [keysList, EnhancedMemoryStore.keys, hp, List.mem_filter]

/-- Claim C7 witness for the amended theorem: pattern with a wildcard on the
concrete store. -/
theorem c7_witness :
    ("k" ∈ keysList exStoreTtl none ↔ "k" ∈ exStoreTtl.map.map Prod.fst) ∧
    ("k" ∈ keysList exStoreTtl (some "k*") ↔
      ("k" ∈ exStoreTtl.map.map Prod.fst ∧
        reTest (globToks "k*".data) "k".data = true)) :=
  c7_amended Nat exStoreTtl "k*" "k" (by decide)

/-! Claim C8 — TTL refresh drift -/

/-- Store after `set("k", 7, {ttlMs: 10})` at time 0: expires at 10. -/
def c8Store : EnhancedMemoryStore Nat :=
  (EnhancedMemoryStore.set exCfg EnhancedMemoryStore.empty 0 "k" 7 { ttlMs := some 10 }).2

/-- Claim C8 evaluation at the failing input. With TTL 10 set at t=0, a
refreshing `get` at t=5 moves `expiresAt` to 15 (= 5 + 10, as claimed for the
first refresh), but the next refreshing `get` at t=6 moves it to
21 = 6 + (15 − 0), not 16 = 6 + 10: the code recomputes its `originalTtl` as
the current `expiresAt − createdAt`, which has grown after the first refresh. -/
theorem c8_code_bug_eval :
    ((alGet (EnhancedMemoryStore.get c8Store 5 "k" { refreshTtl := true }).2.map "k").map
        (fun e => e.metadata.expiresAt)) = some (some 15) ∧
    ((alGet (EnhancedMemoryStore.get
          (EnhancedMemoryStore.get c8Store 5 "k" { refreshTtl := true }).2
          6 "k" { refreshTtl := true }).2.map "k").map
        (fun e => e.metadata.expiresAt)) = some (some 21) ∧
    (21 : Int) ≠ 6 + 10 := by
  refine ⟨?_, ?_, ?_⟩ <;> decide

/-! Claim C9 — `overwrite=false` vs liveness -/

/-- Claim C9 counterexample. The entry for `"k"` in `exStoreTtl` is already
expired at t=10, yet `set` with `overwrite: false` fails: the guard tests
presence in the map, not liveness. -/
theorem c9_counterexample :
    (EnhancedMemoryStore.set exCfg exStoreTtl 10 "k" 2 { overwrite := some false }).1 =
      Result.Err { code := StoreErrorCode.OPERATION_FAILED, key := some "k" } ∧
    ((alGet exStoreTtl.map "k").map (fun e => isExpired e.metadata 10)) = some true := by
  refine ⟨?_, ?_⟩ <;> decide

/-- Claim C9, amended. A `set` with `overwrite=false` fails if and only if the
key is present in the map — whether or not its entry has already expired. -/
theorem c9_amended (V : Type) (cfg : MemConfig V) (s : EnhancedMemoryStore V)
    (now : Int) (key : String) (value : V) (options : SetOptions)
    (hov : options.overwrite = some false) :
    (EnhancedMemoryStore.set cfg s now key value options).1.isOk = false ↔
      (alGet s.map key).isSome = true := by
  unfold EnhancedMemoryStore.set
  by_cases h : (alGet s.map key).isSome
  · rw [if_pos ⟨h, hov⟩]
    simp [Result.isOk, h]
  · rw [if_neg (fun hc => h hc.1)]
    simp [Result.isOk]
    simpa using h

/-- Claim C9 witness for the amended theorem, at the expired-entry store. -/
theorem c9_witness :
    ((EnhancedMemoryStore.set exCfg exStoreTtl 10 "k" 2
        { overwrite := some false }).1.isOk = false ↔
      (alGet exStoreTtl.map "k").isSome = true) :=
  c9_amended Nat exCfg exStoreTtl 10 "k" 2 { overwrite := some false } rfl

/-! Claim C10 — `defaultValue` on `get` -/

/-- Trivial second-tier implementation used to instantiate witnesses: its get
always misses. -/
def unitOps (V : Type v) : StoreOps Unit V :=
  { get := fun s _ _ _ => (Result.Ok none, s)
    set := fun s _ _ _ _ => (Result.Ok (), s)
    mset := fun s _ _ => (Result.Ok { successful := [], failed := [] }, s) }

/-- Claim C10. A `get` carrying a `defaultValue` on a missing or expired key
returns that default as a success while still counting a miss; consequently
the tiered `get` with such options treats the fast-tier default-valued miss
as a hit and returns it immediately — for every possible durable tier
(`ops2`, `l2` universally quantified, the durable state is untouched and the
result does not depend on it). -/
theorem c10_default_value (V : Type) (mcfg : MemConfig V) (σ₂ : Type)
    (ops2 : StoreOps σ₂ V) (cfg : MultiTierConfig) (s : EnhancedMemoryStore V)
    (l2 : σ₂) (q : List (String × QueueItem V)) (now : Int) (key : String) (d : V)
    (options : GetOptions V) (hd : options.defaultValue = some d)
    (hmiss : alGet s.map key = none ∨
      ∃ e, alGet s.map key = some e ∧ isExpired e.metadata now = true) :
    ((EnhancedMemoryStore.get s now key options).1 = Result.Ok (some d) ∧
     (EnhancedMemoryStore.get s now key options).2.stats.misses = s.stats.misses + 1) ∧
    MultiTierStore.get (memOps mcfg) ops2 cfg
        { l1 := s, l2 := l2, writeBehindQueue := q } now key options =
      (Result.Ok (some d),
       { l1 := (EnhancedMemoryStore.get s now key options).2, l2 := l2,
         writeBehindQueue := q }) := by
  have hget : EnhancedMemoryStore.get s now key options =
      (Result.Ok (some d), (EnhancedMemoryStore.get s now key options).2) := by
    rcases hmiss with h | ⟨e, he, hexp⟩
    · rw [mem_get_miss s now key options h, hd]
    · rw [mem_get_expired s now key options e he hexp, hd]
  have hmisses : (EnhancedMemoryStore.get s now key options).2.stats.misses =
      s.stats.misses + 1 := by
    rcases hmiss with h | ⟨e, he, hexp⟩
    · rw [mem_get_miss s now key options h]
    · rw [mem_get_expired s now key options e he hexp]
  refine ⟨⟨by rw [hget], hmisses⟩, ?_⟩
  simp only [MultiTierStore.get, memOps]
  rw [hget]

/-- Default multi-tier configuration (constructor defaults of the source). -/
def exMtCfg : MultiTierConfig :=
  { l1TtlMs := 60000, l2TtlMs := 3600000, populateL1OnL2Hit := true,
    writeThrough := true, writeBehind := false }

/-- Claim C10 witness: empty fast tier, `defaultValue = 7`, trivial durable tier. -/
theorem c10_witness :
    ((EnhancedMemoryStore.get (EnhancedMemoryStore.empty : EnhancedMemoryStore Nat)
        0 "k" { defaultValue := some 7 }).1 = Result.Ok (some 7) ∧
     (EnhancedMemoryStore.get (EnhancedMemoryStore.empty : EnhancedMemoryStore Nat)
        0 "k" { defaultValue := some 7 }).2.stats.misses =
       (EnhancedMemoryStore.empty : EnhancedMemoryStore Nat).stats.misses + 1) ∧
    MultiTierStore.get (memOps exCfg) (unitOps Nat) exMtCfg
        { l1 := EnhancedMemoryStore.empty, l2 := (), writeBehindQueue := [] }
        0 "k" { defaultValue := some 7 } =
      (Result.Ok (some 7),
       { l1 := (EnhancedMemoryStore.get (EnhancedMemoryStore.empty : EnhancedMemoryStore Nat)
            0 "k" { defaultValue := some 7 }).2, l2 := (),
         writeBehindQueue := [] }) :=
  c10_default_value Nat exCfg Unit (unitOps Nat) exMtCfg EnhancedMemoryStore.empty ()
    [] 0 "k" 7 { defaultValue := some 7 } rfl (Or.inl rfl)

/-! Claim C5 — tiered `set`: L1-first, write-through failure policy -/

/-- Claim C5. A tiered `set` always writes the fast tier first with
`ttl ?? l1Ttl`: (a) a fast-tier failure fails the whole call (for every
durable tier, which stays untouched); (b) under `writeThrough` with the fast
tier committed, the durable tier is written synchronously with `ttl ?? l2Ttl`
and the call reports success whatever the durable-tier result — in particular
a durable-tier write failure does not fail the call. -/
theorem c5_set_policy (V σ₁ σ₂ : Type) (ops1 : StoreOps σ₁ V) (ops2 : StoreOps σ₂ V)
    (cfg : MultiTierConfig) (s1 : σ₁) (l2 : σ₂) (q : List (String × QueueItem V))
    (now : Int) (key : String) (value : V) (options : SetOptions) :
    (∀ e s1', ops1.set s1 now key value
        { options with ttlMs := some (options.ttlMs.getD cfg.l1TtlMs) } =
          (Result.Err e, s1') →
      MultiTierStore.set ops1 ops2 cfg { l1 := s1, l2 := l2, writeBehindQueue := q }
          now key value options =
        (Result.Err e, { l1 := s1', l2 := l2, writeBehindQueue := q })) ∧
    (cfg.writeThrough = true →
      ∀ s1', ops1.set s1 now key value
          { options with ttlMs := some (options.ttlMs.getD cfg.l1TtlMs) } =
            (Result.Ok (), s1') →
        MultiTierStore.set ops1 ops2 cfg { l1 := s1, l2 := l2, writeBehindQueue := q }
            now key value options =
          (Result.Ok (),
           { l1 := s1'
             l2 := (ops2.set l2 now key value
               { options with ttlMs := some (options.ttlMs.getD cfg.l2TtlMs) }).2
             writeBehindQueue := q })) := by
  constructor
  · intro e s1' h
    simp only [MultiTierStore.set, h]
  · intro hwt s1' h
    simp only [MultiTierStore.set, h, hwt, if_true]

/-- Claim C5 witness: (a) the fast tier fails (`overwrite:false` on a present
key) and the whole call fails; (b) the fast tier (empty) commits, the durable
tier fails the same way, and the call still reports success. -/
theorem c5_witness :
    (MultiTierStore.set (memOps exCfg) (unitOps Nat) exMtCfg
        { l1 := exStoreTtl, l2 := (), writeBehindQueue := [] } 9 "k" 3
        { overwrite := some false } =
      (Result.Err { code := StoreErrorCode.OPERATION_FAILED, key := some "k" },
       { l1 := exStoreTtl, l2 := (), writeBehindQueue := [] })) ∧
    (MultiTierStore.set (memOps exCfg) (memOps exCfg) exMtCfg
        { l1 := EnhancedMemoryStore.empty, l2 := exStoreTtl, writeBehindQueue := [] }
        9 "k" 3 { overwrite := some false } =
      (Result.Ok (),
       { l1 := (EnhancedMemoryStore.set exCfg EnhancedMemoryStore.empty 9 "k" 3
            { ttlMs := some 60000, overwrite := some false }).2
         l2 := (EnhancedMemoryStore.set exCfg exStoreTtl 9 "k" 3
            { ttlMs := some 3600000, overwrite := some false }).2
         writeBehindQueue := [] })) :=
  ⟨(c5_set_policy Nat (EnhancedMemoryStore Nat) Unit (memOps exCfg) (unitOps Nat)
      exMtCfg exStoreTtl () [] 9 "k" 3 { overwrite := some false }).1
      { code := StoreErrorCode.OPERATION_FAILED, key := some "k" } exStoreTtl (by decide),
   (c5_set_policy Nat (EnhancedMemoryStore Nat) (EnhancedMemoryStore Nat)
      (memOps exCfg) (memOps exCfg) exMtCfg EnhancedMemoryStore.empty exStoreTtl []
      9 "k" 3 { overwrite := some false }).2 rfl
      (EnhancedMemoryStore.set exCfg EnhancedMemoryStore.empty 9 "k" 3
        { ttlMs := some 60000, overwrite := some false }).2 (by decide)⟩

/-! Claim C1 — tiered read-through -/

/-- Claim C1. Tiered `get` (fast tier instantiated with the Cache Engine,
durable tier an arbitrary store): (A) a live fast-tier entry is returned
immediately and the durable-tier state is untouched (for every durable tier);
(B) on a fast-tier miss with a durable-tier hit and `populateL1OnL2Hit`, the
value is returned, the fast tier now holds it with the fast-tier TTL
(`l1Ttl`), and a subsequent `get` within that TTL is served by the fast tier
with the durable tier — any durable tier — untouched; (C) a miss on both
tiers returns Not-Found (`none`). -/
theorem c1_tiered_read_through (V : Type) (mcfg : MemConfig V) (σ₂ σ₃ : Type)
    (ops2 : StoreOps σ₂ V) (ops3 : StoreOps σ₃ V) (cfg : MultiTierConfig)
    (hpop : cfg.populateL1OnL2Hit = true) (httl : cfg.l1TtlMs ≠ 0) :
    (∀ (s1 : EnhancedMemoryStore V) (l2 : σ₂) (q : List (String × QueueItem V))
       (now : Int) (key : String) (e : InMemoryEntry V),
       alGet s1.map key = some e → isExpired e.metadata now = false →
       MultiTierStore.get (memOps mcfg) ops2 cfg
           { l1 := s1, l2 := l2, writeBehindQueue := q } now key {} =
         (Result.Ok (some e.value),
          { l1 := (EnhancedMemoryStore.get s1 now key {}).2, l2 := l2,
            writeBehindQueue := q })) ∧
    (∀ (s1 : EnhancedMemoryStore V) (l2 : σ₂) (q : List (String × QueueItem V))
       (now : Int) (key : String) (v : V) (l2' : σ₂),
       alGet s1.map key = none →
       ops2.get l2 now key {} = (Result.Ok (some v), l2') →
       (MultiTierStore.get (memOps mcfg) ops2 cfg
            { l1 := s1, l2 := l2, writeBehindQueue := q } now key {} =
          (Result.Ok (some v),
           { l1 := (EnhancedMemoryStore.set mcfg
                { s1 with stats := { s1.stats with misses := s1.stats.misses + 1 } }
                now key v { ttlMs := some cfg.l1TtlMs, overwrite := some true }).2
             l2 := l2'
             writeBehindQueue := q })) ∧
       (alGet (EnhancedMemoryStore.set mcfg
            { s1 with stats := { s1.stats with misses := s1.stats.misses + 1 } }
            now key v { ttlMs := some cfg.l1TtlMs, overwrite := some true }).2.map key =
          some { value := v
                 metadata := { createdAt := now, lastAccessedAt := now
                               expiresAt := some (now + cfg.l1TtlMs)
                               sizeBytes := mcfg.calcSize v, accessCount := 1 } }) ∧
       (∀ (l2x : σ₃) (qx : List (String × QueueItem V)) (now₂ : Int),
          now₂ < now + cfg.l1TtlMs →
          MultiTierStore.get (memOps mcfg) ops3 cfg
              { l1 := (EnhancedMemoryStore.set mcfg
                   { s1 with stats := { s1.stats with misses := s1.stats.misses + 1 } }
                   now key v { ttlMs := some cfg.l1TtlMs, overwrite := some true }).2
                l2 := l2x, writeBehindQueue := qx } now₂ key {} =
            (Result.Ok (some v),
             { l1 := (EnhancedMemoryStore.get (EnhancedMemoryStore.set mcfg
                  { s1 with stats := { s1.stats with misses := s1.stats.misses + 1 } }
                  now key v { ttlMs := some cfg.l1TtlMs, overwrite := some true }).2
                  now₂ key {}).2
               l2 := l2x, writeBehindQueue := qx }))) ∧
    (∀ (s1 : EnhancedMemoryStore V) (l2 : σ₂) (q : List (String × QueueItem V))
       (now : Int) (key : String) (l2' : σ₂),
       alGet s1.map key = none →
       ops2.get l2 now key {} = (Result.Ok none, l2') →
       MultiTierStore.get (memOps mcfg) ops2 cfg
           { l1 := s1, l2 := l2, writeBehindQueue := q } now key {} =
         (Result.Ok none,
          { l1 := { s1 with stats := { s1.stats with misses := s1.stats.misses + 1 } },
            l2 := l2', writeBehindQueue := q })) := by
  refine ⟨?_, ?_, ?_⟩
  · intro s1 l2 q now key e hmem hexp
    have hget := mem_get_hit_norefresh s1 now key {} e hmem hexp rfl
    simp only [MultiTierStore.get, memOps, hget]
  · intro s1 l2 q now key v l2' hmiss hl2
    have hget := mem_get_miss s1 now key {} hmiss
    have hentry := mem_set_alGet_self mcfg
      { s1 with stats := { s1.stats with misses := s1.stats.misses + 1 } }
      now key v { ttlMs := some cfg.l1TtlMs, overwrite := some true } (by simp)
    simp only [ne_eq, httl, not_false_eq_true, if_true] at hentry
    refine ⟨?_, hentry, ?_⟩
    · simp only [MultiTierStore.get, memOps, hget, hl2, hpop, if_true]
    · intro l2x qx now₂ hlt
      have hexp2 : isExpired
          ({ createdAt := now, lastAccessedAt := now
             expiresAt := some (now + cfg.l1TtlMs)
             sizeBytes := mcfg.calcSize v, accessCount := 1 } : ValueMetadata) now₂ = false := by
        simp [isExpired]
        omega
      have hget2 := mem_get_hit_norefresh
        (EnhancedMemoryStore.set mcfg
          { s1 with stats := { s1.stats with misses := s1.stats.misses + 1 } }
          now key v { ttlMs := some cfg.l1TtlMs, overwrite := some true }).2
        now₂ key {} _ hentry hexp2 rfl
      simp only [MultiTierStore.get, memOps, hget2]
  · intro s1 l2 q now key l2' hmiss hl2
    have hget := mem_get_miss s1 now key {} hmiss
    simp only [MultiTierStore.get, memOps, hget, hl2]

/-- Durable-tier stub whose get always hits with a fixed value. -/
def constOps (v : V) : StoreOps Unit V :=
  { get := fun s _ _ _ => (Result.Ok (some v), s)
    set := fun s _ _ _ _ => (Result.Ok (), s)
    mset := fun s _ _ => (Result.Ok { successful := [], failed := [] }, s) }

/-- Fast-tier state after the read-through repopulation of the C1 witness. -/
@[reducible] def c1Populated : EnhancedMemoryStore Nat :=
  (EnhancedMemoryStore.set exCfg
    { (EnhancedMemoryStore.empty : EnhancedMemoryStore Nat) with
       stats := { (EnhancedMemoryStore.empty : EnhancedMemoryStore Nat).stats with
                   misses := (EnhancedMemoryStore.empty :
                     EnhancedMemoryStore Nat).stats.misses + 1 } }
    0 "k" 42 { ttlMs := some exMtCfg.l1TtlMs, overwrite := some true }).2

/-- Claim C1 witness: empty fast tier, durable tier that returns 42; the first
`get` read-throughs and repopulates; the second `get` at t=50 (within the
60000ms L1 TTL) is served from the fast tier with a durable tier that never
hits, which stays untouched. -/
theorem c1_witness :
    (MultiTierStore.get (memOps exCfg) (constOps 42) exMtCfg
        { l1 := EnhancedMemoryStore.empty, l2 := (), writeBehindQueue := [] } 0 "k" {} =
      (Result.Ok (some 42),
       { l1 := c1Populated, l2 := (), writeBehindQueue := [] })) ∧
    MultiTierStore.get (memOps exCfg) (unitOps Nat) exMtCfg
        { l1 := c1Populated, l2 := (), writeBehindQueue := [] } 50 "k" {} =
      (Result.Ok (some 42),
       { l1 := (EnhancedMemoryStore.get c1Populated 50 "k" {}).2, l2 := (),
         writeBehindQueue := [] }) := by
  have h := (c1_tiered_read_through Nat exCfg Unit Unit (constOps 42) (unitOps Nat)
    exMtCfg rfl (by decide)).2.1 EnhancedMemoryStore.empty () [] 0 "k" 42 () rfl rfl
  exact ⟨h.1, h.2.2 () [] 50 (by decide)⟩

/-! Helper lemmas about the retry loop of `cacheItem`. -/

/-- Runs of the retry loop that reach loop head `rc` with all previous
attempts failed: if the first success is attempt `j ≤ maxRetries`, the loop
stops there with `retryCount = j`, one invocation per attempt (`j + 1` in
total) and one fixed delay per failure. -/
theorem retryGo_succ_from (fetch : Nat → Result V ε) (maxRetries : Nat)
    (retryDelayMs : Int) (j : Nat) (v : V) (hj : j ≤ maxRetries)
    (hfail : ∀ i, i < j → ∃ e, fetch i = Result.Err e)
    (hsucc : fetch j = Result.Ok v) :
    ∀ (n rc : Nat), rc + n = j →
    retryGo fetch maxRetries retryDelayMs rc (decide (0 < rc)) rc
        (List.replicate rc retryDelayMs) =
      { fetchResult := some (Result.Ok v), retryCount := j,
        retryAttempted := decide (0 < j), calls := j + 1,
        waits := List.replicate j retryDelayMs } := by
  intro n
  induction n with
  | zero =>
    intro rc hrc
    rw [Nat.add_zero] at hrc
    subst hrc
    rw [retryGo]
    rw [if_pos hj, hsucc]
    rw [if_pos (show (Result.Ok v : Result V ε).isOk = true from rfl)]
  | succ n ih =>
    intro rc hrc
    have hrcj : rc < j := by omega
    obtain ⟨e, he⟩ := hfail rc hrcj
    rw [retryGo]
    rw [if_pos (by omega : rc ≤ maxRetries), he]
    rw [if_neg (by simp [Result.isOk])]
    rw [if_pos (by omega : rc + 1 ≤ maxRetries)]
    have hrep : List.replicate rc retryDelayMs ++ [retryDelayMs] =
        List.replicate (rc + 1) retryDelayMs := by
      rw [← List.replicate_succ']
    rw [hrep]
    have hdec : decide (0 < rc + 1) = true := by simp
    calc retryGo fetch maxRetries retryDelayMs (rc + 1) true (rc + 1)
          (List.replicate (rc + 1) retryDelayMs)
        = retryGo fetch maxRetries retryDelayMs (rc + 1) (decide (0 < rc + 1)) (rc + 1)
          (List.replicate (rc + 1) retryDelayMs) := by rw [hdec]
      _ = _ := ih (rc + 1) (by omega)

/-- Runs of the retry loop where every attempt up to `maxRetries` fails: the
loop makes `maxRetries + 1` invocations, ends with `retryCount =
maxRetries + 1` and the last error, and awaits the fixed delay `maxRetries`
times. -/
theorem retryGo_allfail_from (fetch : Nat → Result V ε) (maxRetries : Nat)
    (retryDelayMs : Int) (err : Nat → ε)
    (hfail : ∀ i, i ≤ maxRetries → fetch i = Result.Err (err i)) :
    ∀ (n rc : Nat), rc + n = maxRetries →
    retryGo fetch maxRetries retryDelayMs rc (decide (0 < rc)) rc
        (List.replicate rc retryDelayMs) =
      { fetchResult := some (Result.Err (err maxRetries)),
        retryCount := maxRetries + 1, retryAttempted := true,
        calls := maxRetries + 1,
        waits := List.replicate maxRetries retryDelayMs } := by
  intro n
  induction n with
  | zero =>
    intro rc hrc
    rw [Nat.add_zero] at hrc
    subst hrc
    rw [retryGo]
    rw [if_pos (Nat.le_refl rc), hfail rc (Nat.le_refl rc)]
    rw [if_neg (by simp [Result.isOk])]
    rw [if_neg (by omega)]
  | succ n ih =>
    intro rc hrc
    have hrcm : rc < maxRetries := by omega
    rw [retryGo]
    rw [if_pos (by omega : rc ≤ maxRetries), hfail rc (by omega)]
    rw [if_neg (by simp [Result.isOk])]
    rw [if_pos (by omega : rc + 1 ≤ maxRetries)]
    have hrep : List.replicate rc retryDelayMs ++ [retryDelayMs] =
        List.replicate (rc + 1) retryDelayMs := by
      rw [← List.replicate_succ']
    rw [hrep]
    have hdec : decide (0 < rc + 1) = true := by simp
    calc retryGo fetch maxRetries retryDelayMs (rc + 1) true (rc + 1)
          (List.replicate (rc + 1) retryDelayMs)
        = retryGo fetch maxRetries retryDelayMs (rc + 1) (decide (0 < rc + 1)) (rc + 1)
          (List.replicate (rc + 1) retryDelayMs) := by rw [hdec]
      _ = _ := ih (rc + 1) (by omega)

/-! Claim C3 — bounded fixed-delay retry with short-circuit on success -/

set_option maxRecDepth 4000 in
/-- Claim C3. On a cache miss, when the first `j` fetch attempts fail and
attempt `j` succeeds with `v` (`j ≤ maxRetries`, so at most `maxRetries + 1`
invocations can ever be reached), `cacheItem` returns `v` as a fresh success
with `retryAttempted = (0 < j)` and `retryCount = j`, the fetcher is invoked
exactly `j + 1` times (stopping at the first success), and the delays awaited
between failed attempts are exactly `j` copies of the fixed `retryDelayMs`
(no exponential growth). -/
theorem c3_bounded_retry (V ε : Type) (mcfg : MemConfig V) (s : EnhancedMemoryStore V)
    (now : Int) (key : String) (fetch : Nat → Result V ε) (options : CacheItemOptions V)
    (configDefaultTtlMs : Option Int) (j : Nat) (v : V)
    (hmiss : alGet s.map key = none)
    (hj : j ≤ (mergeOptions options configDefaultTtlMs).maxRetries)
    (hfail : ∀ i, i < j → ∃ e, fetch i = Result.Err e)
    (hsucc : fetch j = Result.Ok v) :
    (cacheItem (memOps mcfg) s now key fetch options configDefaultTtlMs).res =
      Result.Ok
        { value := v, fromCache := false
          metadata := { cacheHit := false, retryAttempted := decide (0 < j),
                        retryCount := j } } ∧
    (cacheItem (memOps mcfg) s now key fetch options configDefaultTtlMs).fetchCalls =
      j + 1 ∧
    (cacheItem (memOps mcfg) s now key fetch options configDefaultTtlMs).waits =
      List.replicate j (mergeOptions options configDefaultTtlMs).retryDelayMs := by
  have hret0 : retryGo fetch (mergeOptions options configDefaultTtlMs).maxRetries
      (mergeOptions options configDefaultTtlMs).retryDelayMs 0 false 0 [] =
      { fetchResult := some (Result.Ok v), retryCount := j,
        retryAttempted := decide (0 < j), calls := j + 1,
        waits := List.replicate j (mergeOptions options configDefaultTtlMs).retryDelayMs } := by
    have h := retryGo_succ_from fetch (mergeOptions options configDefaultTtlMs).maxRetries
      (mergeOptions options configDefaultTtlMs).retryDelayMs j v hj hfail hsucc j 0
      (Nat.zero_add j)
    rwa [show decide (0 < 0) = false from rfl,
         show List.replicate 0 (mergeOptions options configDefaultTtlMs).retryDelayMs = []
           from rfl] at h
  have hget := mem_get_miss s now key
    { refreshTtl := (mergeOptions options configDefaultTtlMs).refreshTtl,
      defaultValue := none } hmiss
  have hset1 := mem_set_ok mcfg
    { s with stats := { s.stats with misses := s.stats.misses + 1 } } now key v
    { ttlMs := some (mergeOptions options configDefaultTtlMs).ttlMs,
      overwrite := some true } (by simp)
  rcases hsp : EnhancedMemoryStore.set mcfg
      { s with stats := { s.stats with misses := s.stats.misses + 1 } } now key v
      { ttlMs := some (mergeOptions options configDefaultTtlMs).ttlMs,
        overwrite := some true } with ⟨r2, s2'⟩
  have hr2 : r2 = Result.Ok () := by
    rw [hsp] at hset1
    exact hset1
  subst hr2
  refine ⟨?_, ?_, ?_⟩ <;>
    simp only [cacheItem, memOps, hget, hret0, hsp]

/-- Fetcher of the C3 witness: two failures, then 42. -/
def c3Fetch : Nat → Result Nat Nat
  | 0 => Result.Err 100
  | 1 => Result.Err 101
  | _ => Result.Ok 42

/-- Claim C3 witness: the spec's concrete scenario B — fetcher throws twice then
returns 42 under `maxRetries = 3` ⇒ value 42, `retryAttempted`, `retryCount = 2`,
3 invocations, two fixed 50ms delays. -/
theorem c3_witness :
    (cacheItem (memOps exCfg) EnhancedMemoryStore.empty 0 "k" c3Fetch
        { maxRetries := some 3, retryDelayMs := some 50 } none).res =
      Result.Ok
        { value := 42, fromCache := false
          metadata := { cacheHit := false, retryAttempted := true, retryCount := 2 } } ∧
    (cacheItem (memOps exCfg) EnhancedMemoryStore.empty 0 "k" c3Fetch
        { maxRetries := some 3, retryDelayMs := some 50 } none).fetchCalls = 3 ∧
    (cacheItem (memOps exCfg) EnhancedMemoryStore.empty 0 "k" c3Fetch
        { maxRetries := some 3, retryDelayMs := some 50 } none).waits = [50, 50] :=
  c3_bounded_retry Nat Nat exCfg EnhancedMemoryStore.empty 0 "k" c3Fetch
    { maxRetries := some 3, retryDelayMs := some 50 } none 2 42 rfl (by decide)
    (by
      intro i hi
      match i, hi with
      | 0, _ => exact ⟨100, rfl⟩
      | 1, _ => exact ⟨101, rfl⟩)
    rfl

/-! Claim C4 — all fetch attempts fail: defaultValue fallback / FetchFailed -/

set_option maxRecDepth 4000 in
/-- Claim C4. When every fetch attempt fails on a cache miss: with a configured
`defaultValue` the call succeeds with that value and `fromCache = false`, the
store is left exactly as the missed `get` left it (only the miss counter
moved — `set` is never invoked — so the key is still absent); without a
`defaultValue` the call fails with FetchFailed carrying the number of
attempts made (`maxRetries + 1`) and the last underlying fetcher error.
Either way the fetcher was invoked exactly `maxRetries + 1` times. -/
theorem c4_fetch_failure (V ε : Type) (mcfg : MemConfig V) (s : EnhancedMemoryStore V)
    (now : Int) (key : String) (fetch : Nat → Result V ε) (err : Nat → ε)
    (options : CacheItemOptions V) (configDefaultTtlMs : Option Int)
    (hmiss : alGet s.map key = none)
    (hfail : ∀ i, i ≤ (mergeOptions options configDefaultTtlMs).maxRetries →
      fetch i = Result.Err (err i)) :
    (∀ d, options.defaultValue = some d →
      (cacheItem (memOps mcfg) s now key fetch options configDefaultTtlMs).res =
        Result.Ok
          { value := d, fromCache := false
            metadata := { cacheHit := false, retryAttempted := true
                          retryCount :=
                            (mergeOptions options configDefaultTtlMs).maxRetries + 1 } } ∧
      (cacheItem (memOps mcfg) s now key fetch options configDefaultTtlMs).store =
        { s with stats := { s.stats with misses := s.stats.misses + 1 } } ∧
      alGet (cacheItem (memOps mcfg) s now key fetch options
        configDefaultTtlMs).store.map key = none) ∧
    (options.defaultValue = none →
      (cacheItem (memOps mcfg) s now key fetch options configDefaultTtlMs).res =
        Result.Err (CacheError.fetchFailed
          ((mergeOptions options configDefaultTtlMs).maxRetries + 1)
          (some (err (mergeOptions options configDefaultTtlMs).maxRetries)))) ∧
    (cacheItem (memOps mcfg) s now key fetch options configDefaultTtlMs).fetchCalls =
      (mergeOptions options configDefaultTtlMs).maxRetries + 1 := by
  have hret0 : retryGo fetch (mergeOptions options configDefaultTtlMs).maxRetries
      (mergeOptions options configDefaultTtlMs).retryDelayMs 0 false 0 [] =
      { fetchResult := some (Result.Err
          (err (mergeOptions options configDefaultTtlMs).maxRetries))
        retryCount := (mergeOptions options configDefaultTtlMs).maxRetries + 1
        retryAttempted := true
        calls := (mergeOptions options configDefaultTtlMs).maxRetries + 1
        waits := List.replicate (mergeOptions options configDefaultTtlMs).maxRetries
          (mergeOptions options configDefaultTtlMs).retryDelayMs } := by
    have h := retryGo_allfail_from fetch
      (mergeOptions options configDefaultTtlMs).maxRetries
      (mergeOptions options configDefaultTtlMs).retryDelayMs err hfail
      (mergeOptions options configDefaultTtlMs).maxRetries 0
      (Nat.zero_add (mergeOptions options configDefaultTtlMs).maxRetries)
    rwa [show decide (0 < 0) = false from rfl,
         show List.replicate 0 (mergeOptions options configDefaultTtlMs).retryDelayMs = []
           from rfl] at h
  have hget := mem_get_miss s now key
    { refreshTtl := (mergeOptions options configDefaultTtlMs).refreshTtl,
      defaultValue := none } hmiss
  refine ⟨?_, ?_, ?_⟩
  · intro d hd
    have hd' : (mergeOptions options configDefaultTtlMs).defaultValue = some d := hd
    refine ⟨?_, ?_, ?_⟩ <;>
      simp only [cacheItem, memOps, hget, hret0, hd', hmiss]
  · intro hn
    have hn' : (mergeOptions options configDefaultTtlMs).defaultValue = none := hn
    simp only [cacheItem, memOps, hget, hret0, hn']
  · simp only [cacheItem, memOps, hget, hret0]
    rcases hcase : (mergeOptions options configDefaultTtlMs).defaultValue with _ | d <;>
      simp only [hcase]

/-- Fetcher of the C4 witness: attempt `i` always fails with error `100 + i`. -/
def c4Fetch : Nat → Result Nat Nat := fun i => Result.Err (100 + i)

/-- Claim C4 witness: the spec's concrete scenario C — the fetcher always
throws, `defaultValue = 999`, `maxRetries = 2` ⇒ success 999 not from cache,
the key stays absent, 3 invocations; without a default the same run fails
with FetchFailed carrying 3 attempts and the last error 102. -/
theorem c4_witness :
    ((cacheItem (memOps exCfg) EnhancedMemoryStore.empty 0 "k" c4Fetch
        { defaultValue := some 999, maxRetries := some 2 } none).res =
      Result.Ok
        { value := 999, fromCache := false
          metadata := { cacheHit := false, retryAttempted := true, retryCount := 3 } } ∧
     alGet (cacheItem (memOps exCfg) EnhancedMemoryStore.empty 0 "k" c4Fetch
        { defaultValue := some 999, maxRetries := some 2 } none).store.map "k" = none ∧
     (cacheItem (memOps exCfg) EnhancedMemoryStore.empty 0 "k" c4Fetch
        { defaultValue := some 999, maxRetries := some 2 } none).fetchCalls = 3) ∧
    (cacheItem (memOps exCfg) EnhancedMemoryStore.empty 0 "k" c4Fetch
        { maxRetries := some 2 } none).res =
      Result.Err (CacheError.fetchFailed 3 (some 102)) := by
  have hA := c4_fetch_failure Nat Nat exCfg EnhancedMemoryStore.empty 0 "k" c4Fetch
    (fun i => 100 + i) { defaultValue := some 999, maxRetries := some 2 } none rfl
    (fun i _ => rfl)
  have hB := c4_fetch_failure Nat Nat exCfg EnhancedMemoryStore.empty 0 "k" c4Fetch
    (fun i => 100 + i) { maxRetries := some 2 } none rfl (fun i _ => rfl)
  exact ⟨⟨(hA.1 999 rfl).1, (hA.1 999 rfl).2.2, hA.2.2⟩, hB.2.1 rfl⟩

/-! Helper lemmas about `mset` and the write-behind flush. -/

theorem msetGo_state_acc (cfg : MemConfig V) (now : Int) :
    ∀ (ops : List (BatchSetOperation V)) (s : EnhancedMemoryStore V)
      (a a' : List String) (f f' : List (String × StoreError)),
      (msetGo cfg now ops s a f).2 = (msetGo cfg now ops s a' f').2 := by
  intro ops
  induction ops with
  | nil => intro s a a' f f'; rfl
  | cons op rest ih =>
    intro s a a' f f'
    rcases hsp : EnhancedMemoryStore.set cfg s now op.key op.value (op.options.getD {})
      with ⟨r, s'⟩
    cases r with
    | Ok u =>
      simp only [msetGo, hsp]
      exact ih s' (a ++ [op.key]) (a' ++ [op.key]) f f'
    | Err e =>
      simp only [msetGo, hsp]
      exact ih s' a a' (f ++ [(op.key, e)]) (f' ++ [(op.key, e)])

theorem msetGo_state_append (cfg : MemConfig V) (now : Int) :
    ∀ (ops1 ops2 : List (BatchSetOperation V)) (s : EnhancedMemoryStore V)
      (a : List String) (f : List (String × StoreError)),
      (msetGo cfg now (ops1 ++ ops2) s a f).2 =
        (msetGo cfg now ops2 (msetGo cfg now ops1 s a f).2 a f).2 := by
  intro ops1
  induction ops1 with
  | nil => intro ops2 s a f; rfl
  | cons op rest ih =>
    intro ops2 s a f
    rcases hsp : EnhancedMemoryStore.set cfg s now op.key op.value (op.options.getD {})
      with ⟨r, s'⟩
    cases r with
    | Ok u =>
      simp only [List.cons_append, msetGo, hsp, List.append_eq]
      rw [ih ops2 s' (a ++ [op.key]) f]
      rw [msetGo_state_acc cfg now ops2 _ (a ++ [op.key]) a f f]
    | Err e =>
      simp only [List.cons_append, msetGo, hsp, List.append_eq]
      rw [ih ops2 s' a (f ++ [(op.key, e)])]
      rw [msetGo_state_acc cfg now ops2 _ a a (f ++ [(op.key, e)]) f]

theorem processWBQ_spec (σ₁ σ₂ : Type) (ops2 : StoreOps σ₂ V)
    (s : MultiTierStore σ₁ σ₂ V) (now : Int)
    (hq : (s.writeBehindQueue.map Prod.fst).Nodup) (hne : s.writeBehindQueue ≠ []) :
    MultiTierStore.processWriteBehindQueue ops2 s now =
      { s with
         l2 := (ops2.mset s.l2 now (flushOperations s.writeBehindQueue)).2
         writeBehindQueue := [] } := by
  simp only [MultiTierStore.processWriteBehindQueue]
  rw [if_neg (by simp [hne])]
  rw [foldl_alDelete_keys s.writeBehindQueue hq]

/-! Claim C2 — write-behind coalescing and single-batch flush -/

/-- Claim C2. Under the write-behind policy, two `set`s of the same key before a
flush leave the durable tier untouched and the queue holding a single entry
for the key carrying the second value (last-write-wins; the first value is
gone from the queue); the batch a flush sends carries only the second value
for that key; the flush drains the entire queue as one `mset` batch to the
durable tier, after which the durable tier holds the second value and the
queue is empty — the first value is never written to the durable tier. -/
theorem c2_write_behind_coalescing (V σ₁ : Type) (ops1 : StoreOps σ₁ V)
    (mcfg2 : MemConfig V) (cfg : MultiTierConfig)
    (hwt : cfg.writeThrough = false) (hwb : cfg.writeBehind = true)
    (s1 s1b s1c : σ₁) (l2 : EnhancedMemoryStore V) (q : List (String × QueueItem V))
    (key : String) (hknotin : key ∉ q.map Prod.fst)
    (hnodup : (q.map Prod.fst).Nodup)
    (now₁ now₂ now₃ : Int) (v1 v2 : V) (topts : SetOptions)
    (hov : topts.overwrite ≠ some false)
    (h1 : ops1.set s1 now₁ key v1
      { topts with ttlMs := some (topts.ttlMs.getD cfg.l1TtlMs) } = (Result.Ok (), s1b))
    (h2 : ops1.set s1b now₂ key v2
      { topts with ttlMs := some (topts.ttlMs.getD cfg.l1TtlMs) } = (Result.Ok (), s1c)) :
    (MultiTierStore.set ops1 (memOps mcfg2) cfg
        (MultiTierStore.set ops1 (memOps mcfg2) cfg
          { l1 := s1, l2 := l2, writeBehindQueue := q } now₁ key v1 topts).2
        now₂ key v2 topts).2 =
      { l1 := s1c, l2 := l2
        writeBehindQueue := q ++ [(key,
          { value := v2
            options := { topts with ttlMs := some (topts.ttlMs.getD cfg.l2TtlMs) }
            timestamp := now₂ })] } ∧
    (∀ op ∈ flushOperations (q ++ [(key,
        ({ value := v2
           options := { topts with ttlMs := some (topts.ttlMs.getD cfg.l2TtlMs) }
           timestamp := now₂ } : QueueItem V))]),
      op.key = key → op.value = v2) ∧
    (MultiTierStore.processWriteBehindQueue (memOps mcfg2)
        { l1 := s1c, l2 := l2
          writeBehindQueue := q ++ [(key,
            { value := v2
              options := { topts with ttlMs := some (topts.ttlMs.getD cfg.l2TtlMs) }
              timestamp := now₂ })] } now₃ =
      { l1 := s1c
        l2 := (EnhancedMemoryStore.mset mcfg2 l2 now₃ (flushOperations (q ++ [(key,
          { value := v2
            options := { topts with ttlMs := some (topts.ttlMs.getD cfg.l2TtlMs) }
            timestamp := now₂ })]))).2
        writeBehindQueue := [] }) ∧
    (∃ e, alGet (MultiTierStore.processWriteBehindQueue (memOps mcfg2)
        { l1 := s1c, l2 := l2
          writeBehindQueue := q ++ [(key,
            { value := v2
              options := { topts with ttlMs := some (topts.ttlMs.getD cfg.l2TtlMs) }
              timestamp := now₂ })] } now₃).l2.map key = some e ∧ e.value = v2) := by
  have hq2 : ((q ++ [(key,
      ({ value := v2
         options := { topts with ttlMs := some (topts.ttlMs.getD cfg.l2TtlMs) }
         timestamp := now₂ } : QueueItem V))]).map Prod.fst).Nodup := by
    rw [List.map_append]
    rw [List.nodup_append]
    exact ⟨hnodup, List.nodup_singleton key, by
      intro a ha hb
      simp only [List.map_cons, List.map_nil, List.mem_singleton] at hb
      subst hb
      exact hknotin ha⟩
  have hstep1 : (MultiTierStore.set ops1 (memOps mcfg2) cfg
      { l1 := s1, l2 := l2, writeBehindQueue := q } now₁ key v1 topts).2 =
      { l1 := s1b, l2 := l2
        writeBehindQueue := q ++ [(key,
          { value := v1
            options := { topts with ttlMs := some (topts.ttlMs.getD cfg.l2TtlMs) }
            timestamp := now₁ })] } := by
    simp only [MultiTierStore.set, h1, hwt, hwb, MultiTierStore.queueWriteBehind]
    simp [alSet_of_notMem q key _ hknotin]
  have hstep2 : (MultiTierStore.set ops1 (memOps mcfg2) cfg
      (MultiTierStore.set ops1 (memOps mcfg2) cfg
        { l1 := s1, l2 := l2, writeBehindQueue := q } now₁ key v1 topts).2
      now₂ key v2 topts).2 =
      { l1 := s1c, l2 := l2
        writeBehindQueue := q ++ [(key,
          { value := v2
            options := { topts with ttlMs := some (topts.ttlMs.getD cfg.l2TtlMs) }
            timestamp := now₂ })] } := by
    rw [hstep1]
    simp only [MultiTierStore.set, h2, hwt, hwb, MultiTierStore.queueWriteBehind]
    simp [alSet_append_self q key _ _ hknotin]
  have hflush : MultiTierStore.processWriteBehindQueue (memOps mcfg2)
      { l1 := s1c, l2 := l2
        writeBehindQueue := q ++ [(key,
          { value := v2
            options := { topts with ttlMs := some (topts.ttlMs.getD cfg.l2TtlMs) }
            timestamp := now₂ })] } now₃ =
      { l1 := s1c
        l2 := (EnhancedMemoryStore.mset mcfg2 l2 now₃ (flushOperations (q ++ [(key,
          { value := v2
            options := { topts with ttlMs := some (topts.ttlMs.getD cfg.l2TtlMs) }
            timestamp := now₂ })]))).2
        writeBehindQueue := [] } := by
    rw [processWBQ_spec σ₁ (EnhancedMemoryStore V) (memOps mcfg2) _ now₃ hq2 (by simp)]
    rfl
  refine ⟨hstep2, ?_, hflush, ?_⟩
  · intro op hop hkeq
    rw [show flushOperations (q ++ [(key,
        ({ value := v2
           options := { topts with ttlMs := some (topts.ttlMs.getD cfg.l2TtlMs) }
           timestamp := now₂ } : QueueItem V))]) =
        flushOperations q ++ flushOperations [(key,
        ({ value := v2
           options := { topts with ttlMs := some (topts.ttlMs.getD cfg.l2TtlMs) }
           timestamp := now₂ } : QueueItem V))] from List.map_append _ _ _] at hop
    rcases List.mem_append.mp hop with hin | hin
    · exfalso
      simp only [flushOperations, List.mem_map] at hin
      obtain ⟨p, hp, hpe⟩ := hin
      apply hknotin
      rw [← hkeq, ← hpe]
      exact List.mem_map_of_mem Prod.fst hp
    · simp only [flushOperations, List.map_cons, List.map_nil,
        List.mem_singleton] at hin
      rw [hin]
  · rw [hflush]
    have hsplit := msetGo_state_append mcfg2 now₃ (flushOperations q)
      (flushOperations [(key,
        ({ value := v2
           options := { topts with ttlMs := some (topts.ttlMs.getD cfg.l2TtlMs) }
           timestamp := now₂ } : QueueItem V))]) l2 [] []
    have hfl : flushOperations (q ++ [(key,
        ({ value := v2
           options := { topts with ttlMs := some (topts.ttlMs.getD cfg.l2TtlMs) }
           timestamp := now₂ } : QueueItem V))]) =
        flushOperations q ++ flushOperations [(key,
        ({ value := v2
           options := { topts with ttlMs := some (topts.ttlMs.getD cfg.l2TtlMs) }
           timestamp := now₂ } : QueueItem V))] := List.map_append _ _ _
    rcases hsp : EnhancedMemoryStore.set mcfg2 (msetGo mcfg2 now₃ (flushOperations q) l2 [] []).2
        now₃ key v2 ({ topts with ttlMs := some (topts.ttlMs.getD cfg.l2TtlMs) } : SetOptions)
      with ⟨r, sfin⟩
    have hval := mem_set_alGet_self mcfg2 (msetGo mcfg2 now₃ (flushOperations q) l2 [] []).2
      now₃ key v2 ({ topts with ttlMs := some (topts.ttlMs.getD cfg.l2TtlMs) } : SetOptions) hov
    rw [hsp] at hval
    have hstate : (EnhancedMemoryStore.mset mcfg2 l2 now₃ (flushOperations (q ++ [(key,
        ({ value := v2
           options := { topts with ttlMs := some (topts.ttlMs.getD cfg.l2TtlMs) }
           timestamp := now₂ } : QueueItem V))]))).2 = sfin := by
      simp only [EnhancedMemoryStore.mset, hfl]
      rw [hsplit]
      have hone : flushOperations [(key,
          ({ value := v2
             options := { topts with ttlMs := some (topts.ttlMs.getD cfg.l2TtlMs) }
             timestamp := now₂ } : QueueItem V))] =
          [{ key := key, value := v2
             options := some { topts with ttlMs := some (topts.ttlMs.getD cfg.l2TtlMs) } }] := rfl
      rw [hone]
      cases r with
      | Ok u => simp only [msetGo, Option.getD_some, hsp]
      | Err e => simp only [msetGo, Option.getD_some, hsp]
    show ∃ e, alGet (EnhancedMemoryStore.mset mcfg2 l2 now₃ (flushOperations (q ++ [(key,
        ({ value := v2
           options := { topts with ttlMs := some (topts.ttlMs.getD cfg.l2TtlMs) }
           timestamp := now₂ } : QueueItem V))]))).2.map key = some e ∧ e.value = v2
    rw [hstate]
    exact ⟨_, hval, rfl⟩

/-- Write-behind multi-tier configuration used in the C2 witness. -/
def c2Cfg : MultiTierConfig :=
  { l1TtlMs := 60000, l2TtlMs := 3600000, populateL1OnL2Hit := true,
    writeThrough := false, writeBehind := true }

/-- Claim C2 witness: writing 7 then 8 to key `"k"` under write-behind leaves
the durable tier (an empty memory store) untouched with the queue holding
only 8; the flush batch contains only value 8 for `"k"`; the flush drains the
queue in one batch after which the durable tier holds 8. -/
theorem c2_witness :
    ((MultiTierStore.set (unitOps Nat) (memOps exCfg) c2Cfg
        (MultiTierStore.set (unitOps Nat) (memOps exCfg) c2Cfg
          { l1 := (), l2 := EnhancedMemoryStore.empty, writeBehindQueue := [] }
          1 "k" 7 {}).2
        2 "k" 8 {}).2 =
      { l1 := (), l2 := EnhancedMemoryStore.empty
        writeBehindQueue := [("k",
          { value := 8, options := { ttlMs := some 3600000, overwrite := none }
            timestamp := 2 })] }) ∧
    (∀ op ∈ flushOperations [("k",
        ({ value := 8, options := { ttlMs := some 3600000, overwrite := none }
           timestamp := 2 } : QueueItem Nat))],
      op.key = "k" → op.value = 8) ∧
    (MultiTierStore.processWriteBehindQueue (memOps exCfg)
        { l1 := (), l2 := EnhancedMemoryStore.empty
          writeBehindQueue := [("k",
            { value := 8, options := { ttlMs := some 3600000, overwrite := none }
              timestamp := 2 })] } 3 =
      { l1 := ()
        l2 := (EnhancedMemoryStore.mset exCfg EnhancedMemoryStore.empty 3
          (flushOperations [("k",
            ({ value := 8, options := { ttlMs := some 3600000, overwrite := none }
               timestamp := 2 } : QueueItem Nat))])).2
        writeBehindQueue := [] }) ∧
    (∃ e, alGet (MultiTierStore.processWriteBehindQueue (memOps exCfg)
        { l1 := (), l2 := EnhancedMemoryStore.empty
          writeBehindQueue := [("k",
            { value := 8, options := { ttlMs := some 3600000, overwrite := none }
              timestamp := 2 })] } 3).l2.map "k" = some e ∧ e.value = 8) :=
  c2_write_behind_coalescing Nat Unit (unitOps Nat) exCfg c2Cfg rfl rfl
    () () () EnhancedMemoryStore.empty [] "k" (by decide) (by decide)
    1 2 3 7 8 {} (by decide) rfl rfl

end EG
